import Mathlib

/-!
# Verification of the store-lifecycle / hydration wrapper

A shallow embedding of `src/packages/wrapper/src/index.tsx` (the single
source file of the repository).  The embedding models:

* JavaScript plain values (`JVal`) with JS truthiness, enough to express
  the untyped props / state objects the wrapper passes around;
* the configuration resolvers (`getDeserializedState`, `getSerializedState`,
  `getStoreKey`) and the two exported string constants;
* a redux-like store (`StoreObj`: a state plus a reducer) and the `hydrate`
  closure of the `Wrapper` component (two conditional `HYDRATE` dispatches);
* the store lifecycle (`initStore`) over an explicit `World` carrying the
  client registry (`window[storeKey]`), the per-request marker field
  (`req.__nextReduxWrapperStore`), a store heap and instrumentation
  counters (factory invocations, emitted warnings) so that reference
  identity and "the factory was (not) invoked" are expressible;
* the phase adapters `makeProps`, `getInitialPageProps`, `getStaticProps`
  and `getServerSideProps`;
* a mutable-heap model of the props-composition part of the `Wrapper`
  render function (merge of `initialProps.pageProps` with `props.pageProps`
  and the shallow-copy removal of `pageProps.initialState`), where
  JS object identity and in-place `delete` are observable.

Modelling conventions, used throughout:
* `typeof window === 'undefined'` (the `getIsServer()` probe) is passed in
  as an explicit `isServer : Bool` flag;
* JS truthiness is modelled by `JVal.truthy` (objects are always truthy);
  an absent object field reads as `undefined`;
* a user callback is modelled by the actions it dispatches into the store
  it is given plus the value it returns, both as a function of the store
  state it observes on entry;
* a throwing user factory is modelled with `Except`: an error propagates
  and no updated `World` is produced, so nothing is memoized;
* `console.warn` is modelled by the `warnings` counter of the `World`;
  `console.log` debug tracing is not modelled (it returns no value and the
  source never branches on it).
-/

namespace NextReduxWrapper

/-- JS plain data values: `undefined`, booleans, numbers, strings and
objects (association lists of fields; only lookup semantics is used, the
first binding of a key wins). Numbers are modelled as `Nat`. -/
inductive JVal where
  | undefined : JVal
  | bool : Bool → JVal
  | num : Nat → JVal
  | str : String → JVal
  | obj : List (String × JVal) → JVal

/-- JS truthiness: `undefined`, `false`, `0` and `""` are falsy; every
object is truthy. -/
def JVal.truthy : JVal → Bool
  | .undefined => false
  | .bool b => b
  | .num n => n ≠ 0
  | .str s => s ≠ ""
  | .obj _ => true

/-- Field list of a value: the fields if it is an object, `[]` otherwise
(destructuring / spreading a primitive contributes no fields). -/
def JVal.fields : JVal → List (String × JVal)
  | .obj fs => fs
  | _ => []

/-- JS property read `v[k]`: first binding of `k` if `v` is an object and
has one, `undefined` otherwise. -/
def JVal.get (v : JVal) (k : String) : JVal :=
  match v.fields.lookup k with
  | some w => w
  | none => .undefined

/-- Rest destructuring `{k₁, ..., ...rest} = v`: the fields of `v` minus
the listed keys. -/
def JVal.rest (v : JVal) (ks : List String) : List (String × JVal) :=
  v.fields.filter (fun p => ¬ p.1 ∈ ks)

/-- `export const HYDRATE = '__NEXT_REDUX_WRAPPER_HYDRATE__'`. -/
def HYDRATE : String := "__NEXT_REDUX_WRAPPER_HYDRATE__"

/-- `export const STOREKEY = '__NEXT_REDUX_WRAPPER_STORE__'`. -/
def STOREKEY : String := "__NEXT_REDUX_WRAPPER_STORE__"

/-- The `Config` interface: optional serialize/deserialize hooks, optional
registry key, debug flag. -/
structure Config where
  serializeState : Option (JVal → JVal) := none
  deserializeState : Option (JVal → JVal) := none
  storeKey : Option String := none
  debug : Bool := false

/-- `getDeserializedState`: apply `config.deserializeState` if configured
(JS truthiness of a function value = presence), identity otherwise. -/
def getDeserializedState (initialState : JVal) (config : Config) : JVal :=
  match config.deserializeState with
  | some d => d initialState
  | none => initialState

/-- `getSerializedState`: apply `config.serializeState` if configured,
identity otherwise. -/
def getSerializedState (state : JVal) (config : Config) : JVal :=
  match config.serializeState with
  | some s => s state
  | none => state

/-- `getStoreKey = ({storeKey}) => storeKey || STOREKEY`: JS `||` falls
through to the default on a falsy (absent or empty) key. -/
def getStoreKey (config : Config) : String :=
  match config.storeKey with
  | some k => if k = "" then STOREKEY else k
  | none => STOREKEY

/-- A dispatched redux action `{type, payload}` (the wrapper only ever
builds `{type: HYDRATE, payload}`; user actions carry other types). -/
structure Action where
  type : String
  payload : JVal

/-- A state container: current state plus the user's reducer.  Dispatch
replaces the state by `reducer state action`. -/
structure StoreObj where
  state : JVal
  reducer : JVal → Action → JVal

/-- `store.dispatch(action)`. -/
def StoreObj.dispatch (s : StoreObj) (a : Action) : StoreObj :=
  { s with state := s.reducer s.state a }

/-- `store.getState()`. -/
def StoreObj.getState (s : StoreObj) : JVal := s.state

/-- The `hydrate` closure of the `Wrapper` component: dispatch a `HYDRATE`
action for the application-level snapshot `initialState` when truthy, then
one for the page-level snapshot `initialStateFromGSPorGSSR` when truthy;
each payload goes through `getDeserializedState` first.  Note the closure
itself never consults the execution environment. -/
def hydrate (config : Config) (initialState initialStateFromGSPorGSSR : JVal)
    (store : StoreObj) : StoreObj :=
  let store :=
    if initialState.truthy then
      store.dispatch { type := HYDRATE, payload := getDeserializedState initialState config }
    else store
  if initialStateFromGSPorGSSR.truthy then
    store.dispatch { type := HYDRATE, payload := getDeserializedState initialStateFromGSPorGSSR config }
  else store

/-! ## Store lifecycle: `initStore` and the phase adapters

The mutable environment the source relies on — the client registry
`window[storeKey]`, the per-request marker `req.__nextReduxWrapperStore`,
and the identity of store objects — is made explicit as a `World`.  Store
objects live in a heap `stores : Nat → Option StoreObj`; a "reference" to
a store is its heap index, so reference identity is index equality.  The
counters `factoryCalls` and `warnings` instrument `makeStore` invocations
and `console.warn` calls. -/

/-- The execution context handed in by the host framework, restricted to
the fields `initStore` and `getInitialPageProps` inspect: `context.req`,
`context.ctx.req` (request references, by request id) and `context.store`
(set when an outer phase already attached a store). -/
structure Context where
  req : Option Nat := none
  ctxReq : Option Nat := none
  store : Option Nat := none

/-- The explicit mutable environment. -/
structure World where
  /-- Store heap: reference (index) to store object. -/
  stores : Nat → Option StoreObj
  /-- Next fresh store reference. -/
  nextId : Nat
  /-- `req.__nextReduxWrapperStore`, per request id. -/
  reqStore : Nat → Option Nat
  /-- The client registry `window[key]`. -/
  window : String → Option Nat
  /-- Number of `makeStore` (factory) invocations so far. -/
  factoryCalls : Nat
  /-- Number of `console.warn` calls so far. -/
  warnings : Nat

/-- A world with no stores, empty registries and zeroed counters. -/
def World.init : World :=
  { stores := fun _ => none, nextId := 0, reqStore := fun _ => none,
    window := fun _ => none, factoryCalls := 0, warnings := 0 }

/-- The user-supplied store factory, `makeStore(context)`; it may throw. -/
def MakeStore (ε : Type) : Type := Context → Except ε StoreObj

/-- `createStore = () => makeStore(context)`: invoke the factory; on
success allocate the resulting store object at a fresh reference.  A
thrown error propagates and yields no updated world. -/
def createStore (makeStore : MakeStore ε) (context : Context) (w : World) :
    Except ε (World × Nat) :=
  match makeStore context with
  | .error e => .error e
  | .ok so =>
      .ok ({ w with
              stores := fun i => if i = w.nextId then some so else w.stores i,
              nextId := w.nextId + 1,
              factoryCalls := w.factoryCalls + 1 }, w.nextId)

/-- The request reference `initStore` resolves from the context:
`let req; if (c.req) req = c.req; if (c.ctx && c.ctx.req) req = c.ctx.req;`
— the nested `ctx.req` overrides a direct `req`. -/
def resolveReq (c : Context) : Option Nat :=
  let req : Option Nat := none
  let req := match c.req with | some r => some r | none => req
  let req := match c.ctxReq with | some r => some r | none => req
  req

/-- `initStore`: on the server, memoize on the request's marker field when
a request reference is exposed and create a fresh store otherwise; on the
client, memoize in `window[getStoreKey(config)]`.  The check-then-set-
then-read of the source (`if (!slot) slot = createStore(); return slot`)
is translated branch by branch. -/
def initStore (isServer : Bool) (makeStore : MakeStore ε) (context : Context)
    (config : Config) (w : World) : Except ε (World × Nat) :=
  let storeKey := getStoreKey config
  if isServer then
    match resolveReq context with
    | some r =>
        match w.reqStore r with
        | none =>
            match createStore makeStore context w with
            | .error e => .error e
            | .ok (w', sid) =>
                .ok ({ w' with reqStore := fun i => if i = r then some sid else w'.reqStore i }, sid)
        | some sid => .ok (w, sid)
    | none => createStore makeStore context w
  else
    match w.window storeKey with
    | none =>
        match createStore makeStore context w with
        | .error e => .error e
        | .ok (w', sid) =>
            .ok ({ w' with window := fun k => if k = storeKey then some sid else w'.window k }, sid)
    | some sid => .ok (w, sid)

/-- A user data-loading callback, modelled by the actions it dispatches
into the store it received through the enriched context and the value it
returns, both as a function of the store state it observes on entry. -/
def Callback : Type := JVal → List Action × JVal

/-- State of the store at reference `sid` (`undefined` for a dangling
reference, which the translated code never produces). -/
def getStoreState (w : World) (sid : Nat) : JVal :=
  match w.stores sid with
  | some so => so.state
  | none => .undefined

/-- Dispatch one action into the store at reference `sid`. -/
def dispatchOn (w : World) (sid : Nat) (a : Action) : World :=
  match w.stores sid with
  | some so =>
      { w with stores := fun i => if i = sid then some (so.dispatch a) else w.stores i }
  | none => w

/-- Run a callback against the store at `sid`: read the state, dispatch
the callback's actions, hand back its returned value. -/
def runCallback (cb : Callback) (w : World) (sid : Nat) : World × JVal :=
  let (acts, ret) := cb (getStoreState w sid)
  (acts.foldl (fun w a => dispatchOn w sid a) w, ret)

/-- `makeProps`: acquire the store via `initStore`, run the optional
callback against it (`(callback && await callback(ctxWithStore)) || {}`),
read the final state and return the `WrapperProps` object
`{initialProps, initialState}`, where `initialState` is the serialized
state on the server and the raw state on the client.  (The `isApp` flag of
the source only selects where in the context the store is nested; the
model hands the store to the callback directly.) -/
def makeProps (isServer : Bool) (makeStore : MakeStore ε) (callback : Option Callback)
    (context : Context) (config : Config) (w : World) : Except ε (World × JVal) :=
  match initStore isServer makeStore context config w with
  | .error e => .error e
  | .ok (w, sid) =>
      let (w, initialProps) :=
        match callback with
        | some cb =>
            let (w, ret) := runCallback cb w sid
            (w, if ret.truthy then ret else .obj [])
        | none => (w, .obj [])
      let state := getStoreState w sid
      .ok (w, .obj [("initialProps", initialProps),
                    ("initialState", if isServer then getSerializedState state config else state)])

/-- `getInitialPageProps`: if the incoming context already carries a store
(`if (context.store)`), warn and run the callback directly against that
store, returning its raw result; otherwise defer to `makeProps`. -/
def getInitialPageProps (isServer : Bool) (makeStore : MakeStore ε) (callback : Callback)
    (context : Context) (config : Config) (w : World) : Except ε (World × JVal) :=
  match context.store with
  | some sid =>
      let w := { w with warnings := w.warnings + 1 }
      .ok (runCallback callback w sid)
  | none => makeProps isServer makeStore (some callback) context config w

/-- `getStaticProps`: run `makeProps`, destructure the result as
`{initialProps: {props, ...settings}, ...wrapperProps}` and return
`{...settings, props: {...wrapperProps, ...props}}` (the host framework's
static-phase shape; `initialProps` is unwrapped, not kept nested). -/
def getStaticProps (isServer : Bool) (makeStore : MakeStore ε) (callback : Option Callback)
    (context : Context) (config : Config) (w : World) : Except ε (World × JVal) :=
  match makeProps isServer makeStore callback context config w with
  | .error e => .error e
  | .ok (w, mp) =>
      let initialProps := mp.get "initialProps"
      let props := initialProps.get "props"
      let settings := initialProps.rest ["props"]
      let wrapperProps := mp.rest ["initialProps"]
      .ok (w, .obj (("props", .obj (props.fields ++ wrapperProps)) :: settings))

/-- `getServerSideProps`: delegates to `getStaticProps`
(`return await getStaticProps(callback)(context)`). -/
def getServerSideProps (isServer : Bool) (makeStore : MakeStore ε) (callback : Option Callback)
    (context : Context) (config : Config) (w : World) : Except ε (World × JVal) :=
  getStaticProps isServer makeStore callback context config w

/-! ## The `Wrapper` render function: props composition

The props part of the `Wrapper` component mutates objects in place
(`props.pageProps = {...}` and `delete resultProps.pageProps.initialState`),
and the claims about it concern object identity (shallow copies, the
caller's objects staying unmutated).  It is therefore embedded against an
explicit heap of JS objects: an object is a reference (`Nat`) into the
heap, a heap cell maps field names to present values, and `HVal.ref`
values alias cells.  Spreading a non-object primitive is modelled as
contributing no fields. -/

/-- A JS value as stored in an object field of the render-time heap model:
primitives or a reference to a heap object. -/
inductive HVal where
  | undefined : HVal
  | num : Nat → HVal
  | str : String → HVal
  | ref : Nat → HVal
deriving DecidableEq

/-- JS truthiness; an object reference is always truthy. -/
def HVal.truthy : HVal → Bool
  | .undefined => false
  | .num n => n ≠ 0
  | .str s => s ≠ ""
  | .ref _ => true

/-- A heap object: present fields only; an absent field reads `undefined`. -/
def HObj : Type := String → Option HVal

/-- Property read `o[k]`. -/
def HObj.get (o : HObj) (k : String) : HVal :=
  match o k with
  | some v => v
  | none => .undefined

/-- Property write `o[k] = v` (also the object-literal field after a
spread: the explicit field wins). -/
def HObj.set (o : HObj) (k : String) (v : HVal) : HObj :=
  fun k' => if k' = k then some v else o k'

/-- `delete o[k]`: the field becomes absent. -/
def HObj.del (o : HObj) (k : String) : HObj :=
  fun k' => if k' = k then none else o k'

/-- The empty object (also what spreading a primitive contributes). -/
def HObj.empty : HObj := fun _ => none

/-- `{...a, ...b}`: every field present in `b` wins, fields only in `a`
are preserved. -/
def HObj.spread (a b : HObj) : HObj :=
  fun k => match b k with
  | some v => some v
  | none => a k

/-- The heap: cell contents plus the next fresh reference. -/
structure Heap where
  mem : Nat → HObj
  next : Nat

/-- Allocate an object; the new cell is `h.next`. -/
def Heap.allocAt (h : Heap) (o : HObj) : Heap :=
  { mem := fun r => if r = h.next then o else h.mem r, next := h.next + 1 }

/-- In-place update of an existing cell. -/
def Heap.update (h : Heap) (r : Nat) (o : HObj) : Heap :=
  { mem := fun r' => if r' = r then o else h.mem r', next := h.next }

/-- View a value as an object for spreading / property access: dereference
a `ref`, treat a primitive as the empty object. -/
def Heap.derefObj (h : Heap) (v : HVal) : HObj :=
  match v with
  | .ref r => h.mem r
  | _ => HObj.empty

/-- Result of the props-composition pipeline: the final heap, the
reference the component renders with (`resultProps`) and the internal rest
object (`props`) — the latter is returned so the merged `pageProps` object
produced at the merge step stays addressable in the statements. -/
structure CompResult where
  heap : Heap
  resultProps : Nat
  props : Nat

/-- The props-composition part of the `Wrapper` render function, for one
render pass over the incoming props object `fullProps`:

* `const {initialState, initialProps, ...props} = <fullProps>` — a fresh
  rest object is allocated;
* `initialStateFromGSPorGSSR = props?.pageProps?.initialState`;
* `if (initialProps && initialProps.pageProps)
     props.pageProps = {...initialProps.pageProps, ...props.pageProps}`;
* `let resultProps = props;
   if (initialStateFromGSPorGSSR) {
     resultProps = {...props, pageProps: {...props.pageProps}};
     delete resultProps.pageProps.initialState; }`. -/
def wrapperCompose (h0 : Heap) (fullProps : Nat) : CompResult :=
  let fp := h0.mem fullProps
  let initialProps := fp.get "initialProps"
  let props := h0.next
  let h1 := h0.allocAt (fun k => if k = "initialState" ∨ k = "initialProps" then none else fp k)
  let initialStateFromGSPorGSSR := (h1.derefObj ((h1.mem props).get "pageProps")).get "initialState"
  let ipPP := (h1.derefObj initialProps).get "pageProps"
  let h2 :=
    if initialProps.truthy && ipPP.truthy then
      let m := h1.next
      let ha := h1.allocAt (HObj.spread (h1.derefObj ipPP) (h1.derefObj ((h1.mem props).get "pageProps")))
      ha.update props ((ha.mem props).set "pageProps" (.ref m))
    else h1
  if initialStateFromGSPorGSSR.truthy then
    let c := h2.next
    let h3 := h2.allocAt (h2.derefObj ((h2.mem props).get "pageProps"))
    let rp := h3.next
    let h4 := h3.allocAt ((h3.mem props).set "pageProps" (.ref c))
    let h5 := h4.update c ((h4.mem c).del "initialState")
    ⟨h5, rp, props⟩
  else
    ⟨h2, props, props⟩

/-! ## Theorems -/

/-- **C1.** In a render pass where both the application-level snapshot
(`initialState`) and the page-level snapshot (`pageProps.initialState`)
are present, `hydrate` dispatches the hydration action for the
application-level snapshot first and the page-level one second, so the
final store equals the result of dispatching hydration(A) then
hydration(B); and at a concrete last-write-wins reducer the reverse order
would yield a different state, so the order is observable. -/
theorem hydration_app_level_before_page_level :
    (∀ (config : Config) (a b : JVal) (store : StoreObj),
        a.truthy = true → b.truthy = true →
        hydrate config a b store =
          (store.dispatch { type := HYDRATE, payload := getDeserializedState a config }).dispatch
            { type := HYDRATE, payload := getDeserializedState b config }) ∧
    ((hydrate {} (.num 1) (.num 5) { state := .num 0, reducer := fun _ acta => acta.payload }).state
        = .num 5 ∧
      (((⟨.num 0, fun _ acta => acta.payload⟩ : StoreObj).dispatch
            { type := HYDRATE, payload := .num 5 }).dispatch
          { type := HYDRATE, payload := .num 1 }).state
        ≠ (hydrate {} (.num 1) (.num 5)
            { state := .num 0, reducer := fun _ acta => acta.payload }).state) := by
  refine ⟨fun config a b store ha hb => by simp [hydrate, ha, hb], rfl, fun h => ?_⟩
  have : (1 : Nat) = 5 := by injection h
  omega

/-- Witness for `hydration_app_level_before_page_level`: both snapshots
concrete and truthy. -/
theorem hydration_app_level_before_page_level_witness :
    hydrate {} (.num 1) (.num 5) { state := .num 0, reducer := fun _ acta => acta.payload } =
      (({ state := .num 0, reducer := fun _ acta => acta.payload } : StoreObj).dispatch
          { type := HYDRATE, payload := getDeserializedState (.num 1) {} }).dispatch
        { type := HYDRATE, payload := getDeserializedState (.num 5) {} } :=
  hydration_app_level_before_page_level.1 {} (.num 1) (.num 5) _ rfl rfl

/-- **C8.** If the configured `serializeState`/`deserializeState` hooks are
mutual inverses, then hydrating a store with the serialized snapshot of a
state `s` (which `hydrate` runs through `getDeserializedState` before
dispatching) produces the same store as hydrating with `s` directly under
the default (identity) configuration: the serialize-on-server /
deserialize-on-client round trip is the identity at the point of dispatch. -/
theorem serialize_deserialize_round_trip (f d : JVal → JVal) (s : JVal)
    (store : StoreObj) (config : Config)
    (hf : config.serializeState = some f) (hd : config.deserializeState = some d)
    (hinv : ∀ x, d (f x) = x)
    (ht : (f s).truthy = true) (hs : s.truthy = true) :
    hydrate config (getSerializedState s config) .undefined store =
      hydrate {} s .undefined store := by
  have hu : JVal.undefined.truthy = false := rfl
  simp [hydrate, getSerializedState, getDeserializedState, hf, hd, ht, hs, hinv, hu]

/-- Witness for `serialize_deserialize_round_trip`: the hooks wrap the
state in a one-field object and project it back out. -/
theorem serialize_deserialize_round_trip_witness :
    hydrate { serializeState := some fun v => .obj [("w", v)],
              deserializeState := some fun v => v.get "w" }
        (getSerializedState (.num 3)
          { serializeState := some fun v => .obj [("w", v)],
            deserializeState := some fun v => v.get "w" })
        .undefined { state := .num 0, reducer := fun _ acta => acta.payload } =
      hydrate {} (.num 3) .undefined { state := .num 0, reducer := fun _ acta => acta.payload } :=
  serialize_deserialize_round_trip (fun v => .obj [("w", v)]) (fun v => v.get "w")
    (.num 3) _ _ rfl rfl (fun _ => rfl) rfl rfl

/-- Any successful client-environment `initStore` call leaves the returned
store registered in the registry under the resolved key. -/
theorem initStore_client_window {ε : Type} {makeStore : MakeStore ε} {context : Context}
    {config : Config} {w w' : World} {sid : Nat}
    (h : initStore false makeStore context config w = .ok (w', sid)) :
    w'.window (getStoreKey config) = some sid := by
  cases hwin : w.window (getStoreKey config) with
  | none =>
      cases hmk : makeStore context with
      | error e => simp [initStore, createStore, hwin, hmk] at h
      | ok so =>
          simp [initStore, createStore, hwin, hmk] at h
          obtain ⟨hw, hs⟩ := h
          subst hw
          simp [hs]
  | some s =>
      simp [initStore, hwin] at h
      obtain ⟨hw, hs⟩ := h
      subst hw
      simp [hwin, hs]

/-- Any successful server-environment `initStore` call whose context
resolves to a request reference leaves the returned store attached to that
request's marker field. -/
theorem initStore_server_req_marker {ε : Type} {makeStore : MakeStore ε} {context : Context}
    {config : Config} {w w' : World} {r sid : Nat}
    (hr : resolveReq context = some r)
    (h : initStore true makeStore context config w = .ok (w', sid)) :
    w'.reqStore r = some sid := by
  cases hm : w.reqStore r with
  | none =>
      cases hmk : makeStore context with
      | error e => simp [initStore, createStore, hr, hm, hmk] at h
      | ok so =>
          simp [initStore, createStore, hr, hm, hmk] at h
          obtain ⟨hw, hs⟩ := h
          subst hw
          simp [hs]
  | some s =>
      simp [initStore, hr, hm] at h
      obtain ⟨hw, hs⟩ := h
      subst hw
      simp [hm, hs]

/-- A successful server-environment `initStore` call with no request
reference always went through `createStore`: it returns the freshly
allocated reference and bumps the allocation and factory counters. -/
theorem initStore_server_noreq_ids {ε : Type} {makeStore : MakeStore ε} {context : Context}
    {config : Config} {w w' : World} {sid : Nat}
    (hr : resolveReq context = none)
    (h : initStore true makeStore context config w = .ok (w', sid)) :
    sid = w.nextId ∧ w'.nextId = w.nextId + 1 ∧ w'.factoryCalls = w.factoryCalls + 1 := by
  cases hmk : makeStore context with
  | error e => simp [initStore, createStore, hr, hmk] at h
  | ok so =>
      simp [initStore, createStore, hr, hmk] at h
      obtain ⟨hw, hs⟩ := h
      subst hw
      simp [hs]

/-- **C2.** Client-environment store acquisition is memoized in the
process-wide registry under the key resolved from `config.storeKey`
(the fixed default when unset): the first call invokes the factory, stores
the result under the key and returns it; every later call in the same
client session returns that same, reference-identical instance and leaves
the world untouched, so at most one store exists per client scope. -/
theorem client_store_memoized (ε : Type) :
    (∀ k : String, k ≠ "" → getStoreKey { storeKey := some k } = k) ∧
    getStoreKey {} = STOREKEY ∧
    (∀ (makeStore : MakeStore ε) (context : Context) (config : Config) (w : World)
        (so : StoreObj),
        w.window (getStoreKey config) = none → makeStore context = .ok so →
        ∃ w', initStore false makeStore context config w = .ok (w', w.nextId) ∧
          w'.window (getStoreKey config) = some w.nextId ∧
          w'.stores w.nextId = some so ∧
          w'.factoryCalls = w.factoryCalls + 1) ∧
    (∀ (makeStore makeStore2 : MakeStore ε) (context context2 : Context) (config : Config)
        (w w' : World) (sid : Nat),
        initStore false makeStore context config w = .ok (w', sid) →
        initStore false makeStore2 context2 config w' = .ok (w', sid)) := by
  refine ⟨fun k hk => by simp [getStoreKey, hk], rfl, ?_, ?_⟩
  · intro makeStore context config w so hwin hmk
    have h : initStore false makeStore context config w =
        .ok ({ w with
                stores := fun i => if i = w.nextId then some so else w.stores i,
                nextId := w.nextId + 1,
                window := fun k => if k = getStoreKey config then some w.nextId else w.window k,
                factoryCalls := w.factoryCalls + 1 }, w.nextId) := by
      simp [initStore, createStore, hwin, hmk]
    exact ⟨_, h, by simp, by simp, rfl⟩
  · intro makeStore makeStore2 context context2 config w w' sid h
    have hw := initStore_client_window h
    simp [initStore, hw]

/-- Witness for `client_store_memoized`: a two-call client session on an
empty world returns reference `0` both times. -/
theorem client_store_memoized_witness :
    getStoreKey { storeKey := some "k" } = "k" ∧
    (∃ w', initStore false ((fun _ => .ok ⟨.num 0, fun s _ => s⟩) : MakeStore Unit) {} {}
        World.init = .ok (w', World.init.nextId) ∧
      w'.window (getStoreKey {}) = some World.init.nextId ∧
      w'.stores World.init.nextId = some ⟨.num 0, fun s _ => s⟩ ∧
      w'.factoryCalls = World.init.factoryCalls + 1) ∧
    (∀ (w' : World) (sid : Nat),
        initStore false ((fun _ => .ok ⟨.num 0, fun s _ => s⟩) : MakeStore Unit) {} {}
            World.init = .ok (w', sid) →
        initStore false ((fun _ => .ok ⟨.num 0, fun s _ => s⟩) : MakeStore Unit) {} {} w'
          = .ok (w', sid)) := by
  refine ⟨(client_store_memoized Unit).1 "k" (by simp),
    (client_store_memoized Unit).2.2.1 _ {} {} World.init ⟨.num 0, fun s _ => s⟩ rfl rfl,
    fun w' sid h => (client_store_memoized Unit).2.2.2 _ _ {} {} {} World.init w' sid h⟩

/-- **C3.** On the server: two acquisition calls whose contexts resolve to
the same request reference return the same, reference-identical store (the
second call changes nothing); on first creation the instance is attached
to the request's marker field; and when the context exposes no request
reference at all, every call invokes the factory and returns a freshly
allocated instance, so two consecutive calls return distinct references. -/
theorem server_store_per_request (ε : Type) :
    (∀ (mk1 mk2 : MakeStore ε) (ctx1 ctx2 : Context) (r : Nat) (config : Config)
        (w w1 : World) (s1 : Nat),
        resolveReq ctx1 = some r → resolveReq ctx2 = some r →
        initStore true mk1 ctx1 config w = .ok (w1, s1) →
        initStore true mk2 ctx2 config w1 = .ok (w1, s1)) ∧
    (∀ (mk : MakeStore ε) (ctx : Context) (r : Nat) (config : Config) (w w' : World)
        (sid : Nat),
        resolveReq ctx = some r → w.reqStore r = none →
        initStore true mk ctx config w = .ok (w', sid) →
        w'.reqStore r = some sid ∧ w'.factoryCalls = w.factoryCalls + 1) ∧
    (∀ (mk : MakeStore ε) (ctx : Context) (config : Config) (w : World) (so : StoreObj),
        resolveReq ctx = none → mk ctx = .ok so →
        ∃ w', initStore true mk ctx config w = .ok (w', w.nextId) ∧
          w'.nextId = w.nextId + 1 ∧ w'.factoryCalls = w.factoryCalls + 1 ∧
          w'.reqStore = w.reqStore ∧ w'.window = w.window ∧
          w'.stores w.nextId = some so) ∧
    (∀ (mk1 mk2 : MakeStore ε) (ctx : Context) (config : Config) (w w1 w2 : World)
        (s1 s2 : Nat),
        resolveReq ctx = none →
        initStore true mk1 ctx config w = .ok (w1, s1) →
        initStore true mk2 ctx config w1 = .ok (w2, s2) →
        s1 ≠ s2) := by
  refine ⟨?_, ?_, ?_, ?_⟩
  · intro mk1 mk2 ctx1 ctx2 r config w w1 s1 hr1 hr2 h1
    have hm := initStore_server_req_marker hr1 h1
    simp [initStore, hr2, hm]
  · intro mk ctx r config w w' sid hr hm h
    cases hmk : mk ctx with
    | error e => simp [initStore, createStore, hr, hm, hmk] at h
    | ok so =>
        simp [initStore, createStore, hr, hm, hmk] at h
        obtain ⟨hw, hs⟩ := h
        subst hw
        simp [hs]
  · intro mk ctx config w so hr hmk
    have h : initStore true mk ctx config w =
        .ok ({ w with
                stores := fun i => if i = w.nextId then some so else w.stores i,
                nextId := w.nextId + 1,
                factoryCalls := w.factoryCalls + 1 }, w.nextId) := by
      simp [initStore, createStore, hr, hmk]
    exact ⟨_, h, rfl, rfl, rfl, rfl, by simp⟩
  · intro mk1 mk2 ctx config w w1 w2 s1 s2 hr h1 h2
    obtain ⟨hs1, hn1, -⟩ := initStore_server_noreq_ids hr h1
    obtain ⟨hs2, -, -⟩ := initStore_server_noreq_ids hr h2
    omega

/-- Witness for `server_store_per_request`: a request-bearing pair of
calls on an empty world, a first-creation attachment, a request-less fresh
creation, and two request-less calls returning the distinct references
`0` and `1`. -/
theorem server_store_per_request_witness :
    (∀ (w1 : World) (s1 : Nat),
        initStore true ((fun _ => .ok ⟨.num 0, fun s _ => s⟩) : MakeStore Unit)
            { req := some 7 } {} World.init = .ok (w1, s1) →
        initStore true ((fun _ => .ok ⟨.num 0, fun s _ => s⟩) : MakeStore Unit)
            { req := some 7 } {} w1 = .ok (w1, s1)) ∧
    (∃ w', initStore true ((fun _ => .ok ⟨.num 0, fun s _ => s⟩) : MakeStore Unit) {} {}
        World.init = .ok (w', World.init.nextId) ∧
      w'.nextId = World.init.nextId + 1 ∧ w'.factoryCalls = World.init.factoryCalls + 1 ∧
      w'.reqStore = World.init.reqStore ∧ w'.window = World.init.window ∧
      w'.stores World.init.nextId = some ⟨.num 0, fun s _ => s⟩) ∧
    (∀ (w1 w2 : World) (s1 s2 : Nat),
        initStore true ((fun _ => .ok ⟨.num 0, fun s _ => s⟩) : MakeStore Unit) {} {}
            World.init = .ok (w1, s1) →
        initStore true ((fun _ => .ok ⟨.num 0, fun s _ => s⟩) : MakeStore Unit) {} {} w1
          = .ok (w2, s2) →
        s1 ≠ s2) := by
  refine ⟨fun w1 s1 h1 => (server_store_per_request Unit).1 _ _ { req := some 7 }
      { req := some 7 } 7 {} World.init w1 s1 rfl rfl h1,
    (server_store_per_request Unit).2.2.1 _ {} {} World.init ⟨.num 0, fun s _ => s⟩ rfl rfl,
    fun w1 w2 s1 s2 h1 h2 =>
      (server_store_per_request Unit).2.2.2 _ _ {} {} World.init w1 w2 s1 s2 rfl h1 h2⟩

/-- Dispatching into one store touches nothing but the store heap. -/
theorem dispatchOn_fields (w : World) (sid : Nat) (a : Action) :
    (dispatchOn w sid a).nextId = w.nextId ∧
    (dispatchOn w sid a).factoryCalls = w.factoryCalls ∧
    (dispatchOn w sid a).warnings = w.warnings ∧
    (dispatchOn w sid a).window = w.window ∧
    (dispatchOn w sid a).reqStore = w.reqStore := by
  unfold dispatchOn
  cases w.stores sid <;> simp

/-- Folding a list of dispatches into one store touches nothing but the
store heap. -/
theorem foldl_dispatchOn_fields (acts : List Action) (w : World) (sid : Nat) :
    ((acts.foldl (fun w a => dispatchOn w sid a) w).nextId = w.nextId ∧
     (acts.foldl (fun w a => dispatchOn w sid a) w).factoryCalls = w.factoryCalls ∧
     (acts.foldl (fun w a => dispatchOn w sid a) w).warnings = w.warnings ∧
     (acts.foldl (fun w a => dispatchOn w sid a) w).window = w.window ∧
     (acts.foldl (fun w a => dispatchOn w sid a) w).reqStore = w.reqStore) := by
  induction acts generalizing w with
  | nil => simp
  | cons a rest ih =>
      obtain ⟨h1, h2, h3, h4, h5⟩ := ih (dispatchOn w sid a)
      obtain ⟨g1, g2, g3, g4, g5⟩ := dispatchOn_fields w sid a
      simp only [List.foldl_cons]
      exact ⟨h1.trans g1, h2.trans g2, h3.trans g3, h4.trans g4, h5.trans g5⟩

/-- Folding a list of dispatches into the store at `sid` applies exactly
those dispatches, in order, to that store object. -/
theorem foldl_dispatchOn_stores (acts : List Action) (w : World) (sid : Nat) (so : StoreObj)
    (h : w.stores sid = some so) :
    (acts.foldl (fun w a => dispatchOn w sid a) w).stores sid
      = some (acts.foldl StoreObj.dispatch so) := by
  induction acts generalizing w so with
  | nil => simpa using h
  | cons a rest ih =>
      have hd : (dispatchOn w sid a).stores sid = some (so.dispatch a) := by
        simp [dispatchOn, h]
      simpa using ih (dispatchOn w sid a) (so.dispatch a) hd

/-- **C4.** When the incoming context of the page-level phase already
carries a store reference, the phase does not create a store (neither the
factory-invocation counter nor the allocation counter nor a registry
changes), runs the user callback directly against the existing store,
emits one diagnostic warning, and still succeeds (it is not fatal). -/
theorem nested_page_phase_guard (ε : Type) (isServer : Bool) (makeStore : MakeStore ε)
    (cb : Callback) (ctx : Context) (config : Config) (w : World) (sid : Nat)
    (so : StoreObj) (hctx : ctx.store = some sid) (hso : w.stores sid = some so) :
    ∃ w', getInitialPageProps isServer makeStore cb ctx config w = .ok (w', (cb so.state).2) ∧
      w'.warnings = w.warnings + 1 ∧
      w'.factoryCalls = w.factoryCalls ∧
      w'.nextId = w.nextId ∧
      w'.window = w.window ∧
      w'.reqStore = w.reqStore ∧
      w'.stores sid = some ((cb so.state).1.foldl StoreObj.dispatch so) := by
  have hres : getInitialPageProps isServer makeStore cb ctx config w =
      .ok ((cb so.state).1.foldl (fun w a => dispatchOn w sid a)
            { w with warnings := w.warnings + 1 }, (cb so.state).2) := by
    simp [getInitialPageProps, hctx, runCallback, getStoreState, hso]
  obtain ⟨h1, h2, h3, h4, h5⟩ :=
    foldl_dispatchOn_fields (cb so.state).1 { w with warnings := w.warnings + 1 } sid
  refine ⟨_, hres, ?_, ?_, ?_, ?_, ?_, ?_⟩
  · simpa using h3
  · simpa using h2
  · simpa using h1
  · simpa using h4
  · simpa using h5
  · exact foldl_dispatchOn_stores _ _ _ so (by simpa using hso)

/-- Witness for `nested_page_phase_guard`: a context carrying store `0`
over a world holding that store; the callback dispatches nothing and
returns `{x: 1}`. -/
theorem nested_page_phase_guard_witness :
    ∃ w', getInitialPageProps true ((fun _ => .ok ⟨.num 9, fun s _ => s⟩) : MakeStore Unit)
        (fun _ => ([], .obj [("x", .num 1)])) { store := some 0 } {}
        { World.init with stores := fun i => if i = 0 then some ⟨.num 4, fun s _ => s⟩ else none }
        = .ok (w', ((fun (_ : JVal) => (([] : List Action), JVal.obj [("x", .num 1)]))
            (JVal.num 4)).2) ∧
      w'.warnings = ({ World.init with
          stores := fun i => if i = 0 then some ⟨.num 4, fun s _ => s⟩ else none } : World).warnings + 1 ∧
      w'.factoryCalls = 0 ∧ w'.nextId = 0 ∧
      w'.window = World.init.window ∧ w'.reqStore = World.init.reqStore ∧
      w'.stores 0 = some ⟨.num 4, fun s _ => s⟩ := by
  obtain ⟨w', h⟩ := nested_page_phase_guard Unit true (fun _ => .ok ⟨.num 9, fun s _ => s⟩)
    (fun _ => ([], .obj [("x", .num 1)])) { store := some 0 } {}
    { World.init with stores := fun i => if i = 0 then some ⟨.num 4, fun s _ => s⟩ else none }
    0 ⟨.num 4, fun s _ => s⟩ rfl (by simp)
  exact ⟨w', h.1, h.2.1, h.2.2.1, h.2.2.2.1, h.2.2.2.2.1, h.2.2.2.2.2.1, h.2.2.2.2.2.2⟩

/-- **C7.** If the user factory throws during store acquisition, the error
propagates to the caller from every acquisition path (client registry
miss, server request-marker miss, request-less server call) and nothing is
memoized: on the same world, a subsequent call with a succeeding factory
goes through creation again (the factory is invoked and a fresh store
returned). -/
theorem factory_error_not_memoized (ε : Type) :
    (∀ (makeStore : MakeStore ε) (ctx : Context) (config : Config) (w : World) (e : ε),
        makeStore ctx = .error e → w.window (getStoreKey config) = none →
        initStore false makeStore ctx config w = .error e) ∧
    (∀ (makeStore : MakeStore ε) (ctx : Context) (r : Nat) (config : Config) (w : World)
        (e : ε),
        makeStore ctx = .error e → resolveReq ctx = some r → w.reqStore r = none →
        initStore true makeStore ctx config w = .error e) ∧
    (∀ (makeStore : MakeStore ε) (ctx : Context) (config : Config) (w : World) (e : ε),
        makeStore ctx = .error e → resolveReq ctx = none →
        initStore true makeStore ctx config w = .error e) ∧
    (∀ (makeStore2 : MakeStore ε) (ctx : Context) (config : Config) (w : World)
        (so : StoreObj),
        w.window (getStoreKey config) = none → makeStore2 ctx = .ok so →
        ∃ w', initStore false makeStore2 ctx config w = .ok (w', w.nextId) ∧
          w'.factoryCalls = w.factoryCalls + 1) ∧
    (∀ (makeStore2 : MakeStore ε) (ctx : Context) (r : Nat) (config : Config) (w : World)
        (so : StoreObj),
        resolveReq ctx = some r → w.reqStore r = none → makeStore2 ctx = .ok so →
        ∃ w', initStore true makeStore2 ctx config w = .ok (w', w.nextId) ∧
          w'.factoryCalls = w.factoryCalls + 1) := by
  refine ⟨?_, ?_, ?_, ?_, ?_⟩
  · intro makeStore ctx config w e hmk hwin
    simp [initStore, createStore, hwin, hmk]
  · intro makeStore ctx r config w e hmk hr hm
    simp [initStore, createStore, hr, hm, hmk]
  · intro makeStore ctx config w e hmk hr
    simp [initStore, createStore, hr, hmk]
  · intro makeStore2 ctx config w so hwin hmk
    have h : initStore false makeStore2 ctx config w =
        .ok ({ w with
                stores := fun i => if i = w.nextId then some so else w.stores i,
                nextId := w.nextId + 1,
                window := fun k => if k = getStoreKey config then some w.nextId else w.window k,
                factoryCalls := w.factoryCalls + 1 }, w.nextId) := by
      simp [initStore, createStore, hwin, hmk]
    exact ⟨_, h, rfl⟩
  · intro makeStore2 ctx r config w so hr hm hmk
    have h : initStore true makeStore2 ctx config w =
        .ok ({ w with
                stores := fun i => if i = w.nextId then some so else w.stores i,
                nextId := w.nextId + 1,
                reqStore := fun i => if i = r then some w.nextId else w.reqStore i,
                factoryCalls := w.factoryCalls + 1 }, w.nextId) := by
      simp [initStore, createStore, hr, hm, hmk]
    exact ⟨_, h, rfl⟩

/-- Witness for `factory_error_not_memoized`: a factory that throws `()`
on the empty world, then a succeeding retry. -/
theorem factory_error_not_memoized_witness :
    initStore false ((fun _ => .error ()) : MakeStore Unit) {} {} World.init = .error () ∧
    initStore true ((fun _ => .error ()) : MakeStore Unit) { req := some 7 } {} World.init
      = .error () ∧
    initStore true ((fun _ => .error ()) : MakeStore Unit) {} {} World.init = .error () ∧
    (∃ w', initStore false ((fun _ => .ok ⟨.num 0, fun s _ => s⟩) : MakeStore Unit) {} {}
        World.init = .ok (w', World.init.nextId) ∧
      w'.factoryCalls = World.init.factoryCalls + 1) ∧
    (∃ w', initStore true ((fun _ => .ok ⟨.num 0, fun s _ => s⟩) : MakeStore Unit)
        { req := some 7 } {} World.init = .ok (w', World.init.nextId) ∧
      w'.factoryCalls = World.init.factoryCalls + 1) :=
  ⟨(factory_error_not_memoized Unit).1 _ {} {} World.init () rfl rfl,
   (factory_error_not_memoized Unit).2.1 _ { req := some 7 } 7 {} World.init () rfl rfl rfl,
   (factory_error_not_memoized Unit).2.2.1 _ {} {} World.init () rfl rfl,
   (factory_error_not_memoized Unit).2.2.2.1 _ {} {} World.init ⟨.num 0, fun s _ => s⟩ rfl rfl,
   (factory_error_not_memoized Unit).2.2.2.2 _ { req := some 7 } 7 {} World.init
     ⟨.num 0, fun s _ => s⟩ rfl rfl rfl⟩

/-- Shape of a successful `makeProps` result: a `WrapperProps` object
whose `initialState` is the final state of the acquired store, serialized
exactly when running on the server. -/
theorem makeProps_shape {ε : Type} {isServer : Bool} {makeStore : MakeStore ε}
    {callback : Option Callback} {context : Context} {config : Config} {w w' : World}
    {res : JVal}
    (h : makeProps isServer makeStore callback context config w = .ok (w', res)) :
    ∃ sid ip, res = .obj [("initialProps", ip),
      ("initialState", if isServer then getSerializedState (getStoreState w' sid) config
                       else getStoreState w' sid)] := by
  cases hi : initStore isServer makeStore context config w with
  | error e => simp [makeProps, hi] at h
  | ok p =>
      obtain ⟨w1, sid⟩ := p
      cases callback with
      | none =>
          simp [makeProps, hi] at h
          obtain ⟨hw, hres⟩ := h
          subst hw
          exact ⟨sid, .obj [], hres.symm⟩
      | some cb =>
          rcases hrc : runCallback cb w1 sid with ⟨w2, ret⟩
          simp [makeProps, hi, hrc] at h
          obtain ⟨hw, hres⟩ := h
          subst hw
          exact ⟨sid, _, hres.symm⟩

/-- **C10.** The `serializeState` hook is applied to the captured store
state only on the server: a client-environment `makeProps` run is entirely
independent of the configured `serializeState` (so the hook is never
invoked) and returns the raw store state as `initialState`, while a
server-environment run returns `getSerializedState` of the final store
state; `hydrate`, which takes no environment input at all, applies
`getDeserializedState` to every present snapshot it dispatches. -/
theorem serialize_only_on_server (ε : Type) :
    (∀ (makeStore : MakeStore ε) (callback : Option Callback) (context : Context)
        (config : Config) (f : Option (JVal → JVal)) (w : World),
        makeProps false makeStore callback context { config with serializeState := f } w
          = makeProps false makeStore callback context config w) ∧
    (∀ (makeStore : MakeStore ε) (callback : Option Callback) (context : Context)
        (config : Config) (w w' : World) (res : JVal),
        makeProps true makeStore callback context config w = .ok (w', res) →
        ∃ sid, res.get "initialState" = getSerializedState (getStoreState w' sid) config) ∧
    (∀ (makeStore : MakeStore ε) (callback : Option Callback) (context : Context)
        (config : Config) (w w' : World) (res : JVal),
        makeProps false makeStore callback context config w = .ok (w', res) →
        ∃ sid, res.get "initialState" = getStoreState w' sid) ∧
    (∀ (config : Config) (a : JVal) (store : StoreObj), a.truthy = true →
        hydrate config a .undefined store
          = store.dispatch { type := HYDRATE, payload := getDeserializedState a config }) := by
  refine ⟨fun makeStore callback context config f w => rfl, ?_, ?_, ?_⟩
  · intro makeStore callback context config w w' res h
    obtain ⟨sid, ip, hres⟩ := makeProps_shape h
    exact ⟨sid, by simp [hres, JVal.get, JVal.fields, List.lookup]⟩
  · intro makeStore callback context config w w' res h
    obtain ⟨sid, ip, hres⟩ := makeProps_shape h
    exact ⟨sid, by simp [hres, JVal.get, JVal.fields, List.lookup]⟩
  · intro config a store ha
    have hu : JVal.undefined.truthy = false := rfl
    simp [hydrate, ha, hu]

/-- Witness for `serialize_only_on_server`: a concrete client run with a
non-identity `serializeState`, a concrete server run, and a concrete
hydration dispatch. -/
theorem serialize_only_on_server_witness :
    (makeProps false ((fun _ => .ok ⟨.num 3, fun s _ => s⟩) : MakeStore Unit) none {}
        { serializeState := some fun _ => .num 99 } World.init
      = makeProps false ((fun _ => .ok ⟨.num 3, fun s _ => s⟩) : MakeStore Unit) none {}
        ({} : Config) World.init) ∧
    (∀ (w' : World) (res : JVal),
        makeProps true ((fun _ => .ok ⟨.num 3, fun s _ => s⟩) : MakeStore Unit) none {}
          { serializeState := some fun _ => .num 99 } World.init = .ok (w', res) →
        ∃ sid, res.get "initialState"
          = getSerializedState (getStoreState w' sid) { serializeState := some fun _ => .num 99 }) ∧
    hydrate {} (.num 2) .undefined ⟨.num 0, fun _ acta => acta.payload⟩
      = StoreObj.dispatch ⟨.num 0, fun _ acta => acta.payload⟩
          { type := HYDRATE, payload := getDeserializedState (.num 2) {} } := by
  refine ⟨(serialize_only_on_server Unit).1 _ none {}
      { serializeState := some fun _ => .num 99 } (some fun _ => .num 99) World.init,
    fun w' res h => (serialize_only_on_server Unit).2.1 _ none {}
      { serializeState := some fun _ => .num 99 } World.init w' res h,
    (serialize_only_on_server Unit).2.2.2 {} (.num 2) ⟨.num 0, fun _ acta => acta.payload⟩ rfl⟩

/-- **C9, counterexample.** A concrete request-time run: the callback
returns `{props: {x: 1}, revalidate: 2}` against a store whose state is
`{count: 0}`.  The phase's result has no `initialProps` field at all and
no top-level `initialState` — the payload is not the nested
`WrapperProps` envelope the claim describes; the state was merged into the
returned `props` object instead. -/
theorem gssp_keeps_initialProps_nested_counterexample :
    ∃ p : World × JVal,
      getServerSideProps true
          ((fun _ => .ok ⟨.obj [("count", .num 0)], fun s _ => s⟩) : MakeStore Unit)
          (some fun _ => ([], .obj [("props", .obj [("x", .num 1)]), ("revalidate", .num 2)]))
          {} {} World.init = .ok p ∧
      p.2.get "initialProps" = .undefined ∧
      p.2.get "initialState" = .undefined ∧
      (p.2.get "props").get "initialState" = .obj [("count", .num 0)] ∧
      (p.2.get "props").get "x" = .num 1 ∧
      p.2.get "revalidate" = .num 2 :=
  ⟨_, rfl, rfl, rfl, rfl, rfl, rfl⟩

/-- **C9, amended.** For every invocation of the request-time phase (the
server-side phase, which delegates to the static phase) whose server-scope
store acquisition succeeds — whatever the context: request-bearing with
the marker already attached, request-bearing first acquisition, or
request-less — the user callback executes against the container `initStore`
acquired for that context (its dispatches land on that very store), the
resulting store state is serialized, and the phase returns the host
framework's unwrapped shape: the callback's non-`props` settings at top
level plus a `props` object holding the callback's own props merged with
the serialized `initialState`; `initialProps` is not kept nested. -/
theorem gssp_returns_unwrapped_static_shape (ε : Type) (makeStore : MakeStore ε)
    (cb : Callback) (ctx : Context) (config : Config) (w w1 : World) (sid : Nat)
    (so : StoreObj) (fs : List (String × JVal))
    (hinit : initStore true makeStore ctx config w = .ok (w1, sid))
    (hso : w1.stores sid = some so)
    (hcb : (cb so.state).2 = .obj fs) :
    ∃ w', getServerSideProps true makeStore (some cb) ctx config w
        = .ok (w', .obj (("props",
            .obj (((JVal.obj fs).get "props").fields ++
              [("initialState", getSerializedState
                  ((cb so.state).1.foldl StoreObj.dispatch so).state config)]))
          :: (JVal.obj fs).rest ["props"])) ∧
      w'.stores sid = some ((cb so.state).1.foldl StoreObj.dispatch so) := by
  have hst : getStoreState w1 sid = so.state := by simp [getStoreState, hso]
  have hrc : runCallback cb w1 sid
      = ((cb so.state).1.foldl (fun wa a => dispatchOn wa sid a) w1, (cb so.state).2) := by
    simp [runCallback, hst]
  have hw2sid : ((cb so.state).1.foldl (fun wa a => dispatchOn wa sid a) w1).stores sid
      = some ((cb so.state).1.foldl StoreObj.dispatch so) :=
    foldl_dispatchOn_stores _ _ _ so hso
  have hstate : getStoreState
      ((cb so.state).1.foldl (fun wa a => dispatchOn wa sid a) w1) sid
      = ((cb so.state).1.foldl StoreObj.dispatch so).state := by
    simp [getStoreState, hw2sid]
  have hmp : makeProps true makeStore (some cb) ctx config w =
      .ok ((cb so.state).1.foldl (fun wa a => dispatchOn wa sid a) w1,
        .obj [("initialProps", .obj fs),
          ("initialState", getSerializedState
              ((cb so.state).1.foldl StoreObj.dispatch so).state config)]) := by
    simp only [makeProps, hinit, hrc, hcb, hstate]
    simp [JVal.truthy]
  refine ⟨(cb so.state).1.foldl (fun wa a => dispatchOn wa sid a) w1, ?_, hw2sid⟩
  simp only [getServerSideProps, getStaticProps, hmp]
  have h1 : (JVal.obj [("initialProps", JVal.obj fs),
      ("initialState", getSerializedState
          ((cb so.state).1.foldl StoreObj.dispatch so).state config)]).get "initialProps"
      = .obj fs := by
    simp [JVal.get, JVal.fields, List.lookup]
  have h2 : (JVal.obj [("initialProps", JVal.obj fs),
      ("initialState", getSerializedState
          ((cb so.state).1.foldl StoreObj.dispatch so).state config)]).rest ["initialProps"]
      = [("initialState", getSerializedState
          ((cb so.state).1.foldl StoreObj.dispatch so).state config)] := by
    simp [JVal.rest, JVal.fields]
  rw [h1, h2]

/-- Witness for `gssp_returns_unwrapped_static_shape`, exercising the
request-marker path: the context carries request `7`, whose marker already
holds store reference `0` (state `{count: 0}`), so acquisition returns the
memoized instance; the callback dispatches nothing and returns
`{props: {x: 1}, revalidate: 2}`.  The resulting payload has the state
inside `props` and no nested `initialProps`. -/
theorem gssp_returns_unwrapped_static_shape_witness :
    ∃ w', getServerSideProps true ((fun _ => .ok ⟨.num 9, fun s _ => s⟩) : MakeStore Unit)
        (some fun _ => ([], .obj [("props", .obj [("x", .num 1)]), ("revalidate", .num 2)]))
        { req := some 7 } {}
        { World.init with
          stores := fun i => if i = 0 then some ⟨.obj [("count", .num 0)], fun s _ => s⟩
                             else none,
          nextId := 1,
          reqStore := fun r => if r = 7 then some 0 else none }
        = .ok (w', .obj [("props", .obj [("x", .num 1),
              ("initialState", .obj [("count", .num 0)])]),
            ("revalidate", .num 2)]) ∧
      w'.stores 0 = some ⟨.obj [("count", .num 0)], fun s _ => s⟩ :=
  gssp_returns_unwrapped_static_shape Unit (fun _ => .ok ⟨.num 9, fun s _ => s⟩)
    (fun _ => ([], .obj [("props", .obj [("x", .num 1)]), ("revalidate", .num 2)]))
    { req := some 7 } {}
    { World.init with
      stores := fun i => if i = 0 then some ⟨.obj [("count", .num 0)], fun s _ => s⟩
                         else none,
      nextId := 1,
      reqStore := fun r => if r = 7 then some 0 else none }
    { World.init with
      stores := fun i => if i = 0 then some ⟨.obj [("count", .num 0)], fun s _ => s⟩
                         else none,
      nextId := 1,
      reqStore := fun r => if r = 7 then some 0 else none }
    0 ⟨.obj [("count", .num 0)], fun s _ => s⟩
    [("props", .obj [("x", .num 1)]), ("revalidate", .num 2)] rfl rfl rfl


/-- Execution trace of `wrapperCompose` in the full scenario: the incoming
props object `P` carries a `pageProps` object (cell `ppr`) with a truthy
`initialState`, and an `initialProps` object (cell `ipr`) that itself
carries a `pageProps` object (cell `appr`).  The merge allocates the
merged page props at `h.next + 1` and hangs it off the rest object at
`h.next`; the cleanup copies it to `h.next + 2`, deletes `initialState`
there, and returns the fresh result object `h.next + 3`; every
pre-existing cell is untouched. -/
theorem wrapperCompose_specC (h : Heap) (P ppr ipr appr : Nat) (sv : HVal)
    (hpp : h.mem P "pageProps" = some (.ref ppr)) (hppr : ppr < h.next)
    (hip : h.mem P "initialProps" = some (.ref ipr)) (hipr : ipr < h.next)
    (hipp : h.mem ipr "pageProps" = some (.ref appr)) (happr : appr < h.next)
    (hsnapf : h.mem ppr "initialState" = some sv) (hsv : sv.truthy = true) :
    (wrapperCompose h P).props = h.next ∧
    (wrapperCompose h P).resultProps = h.next + 3 ∧
    (wrapperCompose h P).heap.next = h.next + 4 ∧
    (∀ r, r < h.next → (wrapperCompose h P).heap.mem r = h.mem r) ∧
    (wrapperCompose h P).heap.mem (h.next) "pageProps" = some (.ref (h.next + 1)) ∧
    (wrapperCompose h P).heap.mem (h.next + 1) = HObj.spread (h.mem appr) (h.mem ppr) ∧
    (wrapperCompose h P).heap.mem (h.next + 3) "pageProps" = some (.ref (h.next + 2)) ∧
    (wrapperCompose h P).heap.mem (h.next + 2)
      = (HObj.spread (h.mem appr) (h.mem ppr)).del "initialState" := by
  have a1 : ppr ≠ h.next := by omega
  have a2 : ipr ≠ h.next := by omega
  have a3 : appr ≠ h.next := by omega
  have a4 : ppr ≠ h.next + 1 := by omega
  have a5 : ipr ≠ h.next + 1 := by omega
  have a6 : appr ≠ h.next + 1 := by omega
  have b1 : ¬ (h.next = h.next + 1) := by omega
  have b2 : ¬ (h.next = h.next + 1 + 1) := by omega
  have b3 : ¬ (h.next = h.next + 2) := by omega
  have b4 : ¬ (h.next + 1 = h.next) := by omega
  have b5 : ¬ (h.next + 1 = h.next + 1 + 1) := by omega
  have b6 : ¬ (h.next + 1 = h.next + 2) := by omega
  have b7 : ¬ (h.next + 1 + 1 = h.next + 1 + 1 + 1) := by omega
  have b8 : ¬ (h.next + 2 = h.next + 3) := by omega
  have b9 : ¬ (h.next + 2 = h.next + 1 + 1 + 1) := by omega
  have b10 : ¬ (h.next + 3 = h.next + 2) := by omega
  have b11 : ¬ (h.next + 3 = h.next) := by omega
  have b12 : ¬ (h.next + 2 = h.next) := by omega
  have b13 : ¬ (h.next + 2 = h.next + 1) := by omega
  have b14 : ¬ (h.next + 3 = h.next + 1) := by omega
  have b15 : ¬ (h.next = h.next + 1 + 1 + 1) := by omega
  have b16 : ¬ (h.next + 1 = h.next + 1 + 1 + 1) := by omega
  have b17 : ¬ (h.next = h.next + 3) := by omega
  have b18 : ¬ (h.next + 1 = h.next + 3) := by omega
  have b19 : ¬ (h.next + 1 + 1 = h.next) := by omega
  have b20 : ¬ (h.next + 1 + 1 = h.next + 1) := by omega
  have b21 : ¬ (h.next + 1 + 1 + 1 = h.next) := by omega
  have b22 : ¬ (h.next + 1 + 1 + 1 = h.next + 1) := by omega
  have b23 : ¬ (h.next + 1 + 1 + 1 = h.next + 1 + 1) := by omega
  have b24 : ¬ (h.next + 3 = h.next + 1 + 1) := by omega
  have b25 : ¬ (h.next + 2 = h.next + 1 + 1 + 1 + 1) := by omega
  have t1 : (HVal.ref ipr).truthy = true := rfl
  have t2 : (HVal.ref appr).truthy = true := rfl
  refine ⟨?_, ?_, ?_, fun r hr => ?_, ?_, ?_, ?_, ?_⟩
  · simp [wrapperCompose, Heap.allocAt, Heap.update, Heap.derefObj, HObj.get, HObj.set,
      HObj.spread, HObj.del, hpp, hip, hipp, hsnapf, hsv, t1, t2,
      a1, a2, a3, a4, a5, a6, b1, b2, b3, b4, b5, b6, b7, b8, b9, b10, b11, b12, b13, b14,
      b15, b16, b17, b18, b19, b20, b21, b22, b23, b24, b25]
  · simp [wrapperCompose, Heap.allocAt, Heap.update, Heap.derefObj, HObj.get, HObj.set,
      HObj.spread, HObj.del, hpp, hip, hipp, hsnapf, hsv, t1, t2,
      a1, a2, a3, a4, a5, a6, b1, b2, b3, b4, b5, b6, b7, b8, b9, b10, b11, b12, b13, b14,
      b15, b16, b17, b18, b19, b20, b21, b22, b23, b24, b25]
  · simp [wrapperCompose, Heap.allocAt, Heap.update, Heap.derefObj, HObj.get, HObj.set,
      HObj.spread, HObj.del, hpp, hip, hipp, hsnapf, hsv, t1, t2,
      a1, a2, a3, a4, a5, a6, b1, b2, b3, b4, b5, b6, b7, b8, b9, b10, b11, b12, b13, b14,
      b15, b16, b17, b18, b19, b20, b21, b22, b23, b24, b25]
  · have c1 : r ≠ h.next := by omega
    have c2 : r ≠ h.next + 1 := by omega
    have c3 : r ≠ h.next + 2 := by omega
    have c4 : r ≠ h.next + 3 := by omega
    have c5 : r ≠ h.next + 1 + 1 := by omega
    have c6 : r ≠ h.next + 1 + 1 + 1 := by omega
    simp [wrapperCompose, Heap.allocAt, Heap.update, Heap.derefObj, HObj.get, HObj.set,
      HObj.spread, HObj.del, hpp, hip, hipp, hsnapf, hsv, t1, t2,
      a1, a2, a3, a4, a5, a6, b1, b2, b3, b4, b5, b6, b7, b8, b9, b10, b11, b12, b13, b14,
      b15, b16, b17, b18, b19, b20, b21, b22, b23, b24, b25,
      c1, c2, c3, c4, c5, c6]
  · simp [wrapperCompose, Heap.allocAt, Heap.update, Heap.derefObj, HObj.get, HObj.set,
      HObj.spread, HObj.del, hpp, hip, hipp, hsnapf, hsv, t1, t2,
      a1, a2, a3, a4, a5, a6, b1, b2, b3, b4, b5, b6, b7, b8, b9, b10, b11, b12, b13, b14,
      b15, b16, b17, b18, b19, b20, b21, b22, b23, b24, b25]
  · simp [wrapperCompose, Heap.allocAt, Heap.update, Heap.derefObj, HObj.get, HObj.set,
      HObj.spread, HObj.del, hpp, hip, hipp, hsnapf, hsv, t1, t2,
      a1, a2, a3, a4, a5, a6, b1, b2, b3, b4, b5, b6, b7, b8, b9, b10, b11, b12, b13, b14,
      b15, b16, b17, b18, b19, b20, b21, b22, b23, b24, b25]
  · simp [wrapperCompose, Heap.allocAt, Heap.update, Heap.derefObj, HObj.get, HObj.set,
      HObj.spread, HObj.del, hpp, hip, hipp, hsnapf, hsv, t1, t2,
      a1, a2, a3, a4, a5, a6, b1, b2, b3, b4, b5, b6, b7, b8, b9, b10, b11, b12, b13, b14,
      b15, b16, b17, b18, b19, b20, b21, b22, b23, b24, b25]
  · simp [wrapperCompose, Heap.allocAt, Heap.update, Heap.derefObj, HObj.get, HObj.set,
      HObj.spread, HObj.del, hpp, hip, hipp, hsnapf, hsv, t1, t2,
      a1, a2, a3, a4, a5, a6, b1, b2, b3, b4, b5, b6, b7, b8, b9, b10, b11, b12, b13, b14,
      b15, b16, b17, b18, b19, b20, b21, b22, b23, b24, b25]

/-- Execution trace of `wrapperCompose` when the incoming props carry no
`initialProps` at all but the `pageProps` object (cell `ppr`) has a truthy
`initialState`: the merge is skipped, the cleanup copies the original page
props to `h.next + 1`, deletes `initialState` there, and returns the fresh
result object `h.next + 2`; every pre-existing cell is untouched. -/
theorem wrapperCompose_specA (h : Heap) (P ppr : Nat) (sv : HVal)
    (hpp : h.mem P "pageProps" = some (.ref ppr)) (hppr : ppr < h.next)
    (hip : h.mem P "initialProps" = none)
    (hsnapf : h.mem ppr "initialState" = some sv) (hsv : sv.truthy = true) :
    (wrapperCompose h P).props = h.next ∧
    (wrapperCompose h P).resultProps = h.next + 2 ∧
    (wrapperCompose h P).heap.next = h.next + 3 ∧
    (∀ r, r < h.next → (wrapperCompose h P).heap.mem r = h.mem r) ∧
    (wrapperCompose h P).heap.mem (h.next) "pageProps" = some (.ref ppr) ∧
    (wrapperCompose h P).heap.mem (h.next + 2) "pageProps" = some (.ref (h.next + 1)) ∧
    (wrapperCompose h P).heap.mem (h.next + 1) = (h.mem ppr).del "initialState" := by
  have a1 : ppr ≠ h.next := by omega
  have a2 : ppr ≠ h.next + 1 := by omega
  have b1 : ¬ (h.next = h.next + 1) := by omega
  have b2 : ¬ (h.next = h.next + 1 + 1) := by omega
  have b3 : ¬ (h.next = h.next + 2) := by omega
  have b4 : ¬ (h.next + 1 = h.next) := by omega
  have b5 : ¬ (h.next + 1 = h.next + 1 + 1) := by omega
  have b6 : ¬ (h.next + 1 = h.next + 2) := by omega
  have b7 : ¬ (h.next + 2 = h.next) := by omega
  have b8 : ¬ (h.next + 2 = h.next + 1) := by omega
  have b9 : ¬ (h.next + 1 + 1 = h.next) := by omega
  have b10 : ¬ (h.next + 1 + 1 = h.next + 1) := by omega
  have b11 : ¬ (h.next + 2 = h.next + 1 + 1 + 1) := by omega
  have t0 : HVal.undefined.truthy = false := rfl
  have hsimp : ∀ r : Nat, r < h.next →
      ((wrapperCompose h P).heap.mem r = h.mem r) := by
    intro r hr
    have c1 : r ≠ h.next := by omega
    have c2 : r ≠ h.next + 1 := by omega
    have c3 : r ≠ h.next + 2 := by omega
    have c4 : r ≠ h.next + 1 + 1 := by omega
    simp [wrapperCompose, Heap.allocAt, Heap.update, Heap.derefObj, HObj.get, HObj.set,
      HObj.spread, HObj.del, hpp, hip, hsnapf, hsv, t0,
      a1, a2, b1, b2, b3, b4, b5, b6, b7, b8, b9, b10, b11, c1, c2, c3, c4]
  refine ⟨?_, ?_, ?_, hsimp, ?_, ?_, ?_⟩ <;>
    simp [wrapperCompose, Heap.allocAt, Heap.update, Heap.derefObj, HObj.get, HObj.set,
      HObj.spread, HObj.del, hpp, hip, hsnapf, hsv, t0,
      a1, a2, b1, b2, b3, b4, b5, b6, b7, b8, b9, b10, b11]

/-- Execution trace of `wrapperCompose` when the incoming props carry an
`initialProps` object (cell `ipr`) that has no `pageProps`, while the
page-level `pageProps` object (cell `ppr`) has a truthy `initialState`:
identical to the no-`initialProps` trace — the merge is skipped and the
cleanup operates on a copy at `h.next + 1`. -/
theorem wrapperCompose_specB (h : Heap) (P ppr ipr : Nat) (sv : HVal)
    (hpp : h.mem P "pageProps" = some (.ref ppr)) (hppr : ppr < h.next)
    (hip : h.mem P "initialProps" = some (.ref ipr)) (hipr : ipr < h.next)
    (hipp : h.mem ipr "pageProps" = none)
    (hsnapf : h.mem ppr "initialState" = some sv) (hsv : sv.truthy = true) :
    (wrapperCompose h P).props = h.next ∧
    (wrapperCompose h P).resultProps = h.next + 2 ∧
    (wrapperCompose h P).heap.next = h.next + 3 ∧
    (∀ r, r < h.next → (wrapperCompose h P).heap.mem r = h.mem r) ∧
    (wrapperCompose h P).heap.mem (h.next) "pageProps" = some (.ref ppr) ∧
    (wrapperCompose h P).heap.mem (h.next + 2) "pageProps" = some (.ref (h.next + 1)) ∧
    (wrapperCompose h P).heap.mem (h.next + 1) = (h.mem ppr).del "initialState" := by
  have a1 : ppr ≠ h.next := by omega
  have a2 : ppr ≠ h.next + 1 := by omega
  have a3 : ipr ≠ h.next := by omega
  have b1 : ¬ (h.next = h.next + 1) := by omega
  have b2 : ¬ (h.next = h.next + 1 + 1) := by omega
  have b3 : ¬ (h.next = h.next + 2) := by omega
  have b4 : ¬ (h.next + 1 = h.next) := by omega
  have b5 : ¬ (h.next + 1 = h.next + 1 + 1) := by omega
  have b6 : ¬ (h.next + 1 = h.next + 2) := by omega
  have b7 : ¬ (h.next + 2 = h.next) := by omega
  have b8 : ¬ (h.next + 2 = h.next + 1) := by omega
  have b9 : ¬ (h.next + 1 + 1 = h.next) := by omega
  have b10 : ¬ (h.next + 1 + 1 = h.next + 1) := by omega
  have b11 : ¬ (h.next + 2 = h.next + 1 + 1 + 1) := by omega
  have t0 : HVal.undefined.truthy = false := rfl
  have t1 : (HVal.ref ipr).truthy = true := rfl
  have hsimp : ∀ r : Nat, r < h.next →
      ((wrapperCompose h P).heap.mem r = h.mem r) := by
    intro r hr
    have c1 : r ≠ h.next := by omega
    have c2 : r ≠ h.next + 1 := by omega
    have c3 : r ≠ h.next + 2 := by omega
    have c4 : r ≠ h.next + 1 + 1 := by omega
    simp [wrapperCompose, Heap.allocAt, Heap.update, Heap.derefObj, HObj.get, HObj.set,
      HObj.spread, HObj.del, hpp, hip, hipp, hsnapf, hsv, t0, t1,
      a1, a2, a3, b1, b2, b3, b4, b5, b6, b7, b8, b9, b10, b11, c1, c2, c3, c4]
  refine ⟨?_, ?_, ?_, hsimp, ?_, ?_, ?_⟩ <;>
    simp [wrapperCompose, Heap.allocAt, Heap.update, Heap.derefObj, HObj.get, HObj.set,
      HObj.spread, HObj.del, hpp, hip, hipp, hsnapf, hsv, t0, t1,
      a1, a2, a3, b1, b2, b3, b4, b5, b6, b7, b8, b9, b10, b11]

/-- Execution trace of `wrapperCompose` in the merge scenario when the
page-level `pageProps` object has no truthy `initialState`: the merged
page props are allocated at `h.next + 1` and hung off the rest object,
and the cleanup is skipped — the rest object itself is returned. -/
theorem wrapperCompose_specC_nosnap (h : Heap) (P ppr ipr appr : Nat)
    (hpp : h.mem P "pageProps" = some (.ref ppr)) (hppr : ppr < h.next)
    (hip : h.mem P "initialProps" = some (.ref ipr)) (hipr : ipr < h.next)
    (hipp : h.mem ipr "pageProps" = some (.ref appr)) (happr : appr < h.next)
    (hsnap : ∀ sv, h.mem ppr "initialState" = some sv → sv.truthy = false) :
    (wrapperCompose h P).props = h.next ∧
    (wrapperCompose h P).resultProps = h.next ∧
    (wrapperCompose h P).heap.next = h.next + 2 ∧
    (∀ r, r < h.next → (wrapperCompose h P).heap.mem r = h.mem r) ∧
    (wrapperCompose h P).heap.mem (h.next) "pageProps" = some (.ref (h.next + 1)) ∧
    (wrapperCompose h P).heap.mem (h.next + 1) = HObj.spread (h.mem appr) (h.mem ppr) := by
  have a1 : ppr ≠ h.next := by omega
  have a2 : ipr ≠ h.next := by omega
  have a3 : appr ≠ h.next := by omega
  have a4 : ppr ≠ h.next + 1 := by omega
  have a5 : ipr ≠ h.next + 1 := by omega
  have a6 : appr ≠ h.next + 1 := by omega
  have b1 : ¬ (h.next = h.next + 1) := by omega
  have b4 : ¬ (h.next + 1 = h.next) := by omega
  have t0 : HVal.undefined.truthy = false := rfl
  have t1 : (HVal.ref ipr).truthy = true := rfl
  have t2 : (HVal.ref appr).truthy = true := rfl
  cases hs : h.mem ppr "initialState" with
  | none =>
      have hsimp : ∀ r : Nat, r < h.next →
          ((wrapperCompose h P).heap.mem r = h.mem r) := by
        intro r hr
        have c1 : r ≠ h.next := by omega
        have c2 : r ≠ h.next + 1 := by omega
        simp [wrapperCompose, Heap.allocAt, Heap.update, Heap.derefObj, HObj.get, HObj.set,
          HObj.spread, HObj.del, hpp, hip, hipp, hs, t0, t1, t2,
          a1, a2, a3, a4, a5, a6, b1, b4, c1, c2]
      refine ⟨?_, ?_, ?_, hsimp, ?_, ?_⟩ <;>
        simp [wrapperCompose, Heap.allocAt, Heap.update, Heap.derefObj, HObj.get, HObj.set,
          HObj.spread, HObj.del, hpp, hip, hipp, hs, t0, t1, t2,
          a1, a2, a3, a4, a5, a6, b1, b4]
  | some sv =>
      have hsv : sv.truthy = false := hsnap sv hs
      have hsimp : ∀ r : Nat, r < h.next →
          ((wrapperCompose h P).heap.mem r = h.mem r) := by
        intro r hr
        have c1 : r ≠ h.next := by omega
        have c2 : r ≠ h.next + 1 := by omega
        simp [wrapperCompose, Heap.allocAt, Heap.update, Heap.derefObj, HObj.get, HObj.set,
          HObj.spread, HObj.del, hpp, hip, hipp, hs, hsv, t0, t1, t2,
          a1, a2, a3, a4, a5, a6, b1, b4, c1, c2]
      refine ⟨?_, ?_, ?_, hsimp, ?_, ?_⟩ <;>
        simp [wrapperCompose, Heap.allocAt, Heap.update, Heap.derefObj, HObj.get, HObj.set,
          HObj.spread, HObj.del, hpp, hip, hipp, hs, hsv, t0, t1, t2,
          a1, a2, a3, a4, a5, a6, b1, b4]

/-- **C6.** When `initialProps.pageProps` exists, the `pageProps` object
the merge step installs on the rest-props object is exactly the merge in
which every key present in the page-level `pageProps` wins over a
same-named key of the application-level `initialProps.pageProps`, and keys
present on only one side are preserved. -/
theorem pageProps_merge_page_level_wins (h : Heap) (P ppr ipr appr : Nat)
    (hpp : h.mem P "pageProps" = some (.ref ppr)) (hppr : ppr < h.next)
    (hip : h.mem P "initialProps" = some (.ref ipr)) (hipr : ipr < h.next)
    (hipp : h.mem ipr "pageProps" = some (.ref appr)) (happr : appr < h.next) :
    ∃ m, (wrapperCompose h P).heap.mem (wrapperCompose h P).props "pageProps"
        = some (.ref m) ∧
      ∀ k, (wrapperCompose h P).heap.mem m k
        = (match h.mem ppr k with
           | some v => some v
           | none => h.mem appr k) := by
  cases hs : h.mem ppr "initialState" with
  | none =>
      obtain ⟨h1, -, -, -, h5, h6⟩ := wrapperCompose_specC_nosnap h P ppr ipr appr
        hpp hppr hip hipr hipp happr (fun sv hsv => by rw [hs] at hsv; cases hsv)
      refine ⟨h.next + 1, ?_, fun k => ?_⟩
      · rw [h1]; exact h5
      · rw [h6]; rfl
  | some sv =>
      by_cases hsv : sv.truthy = true
      · obtain ⟨h1, -, -, -, h5, h6, -, -⟩ := wrapperCompose_specC h P ppr ipr appr sv
          hpp hppr hip hipr hipp happr hs hsv
        refine ⟨h.next + 1, ?_, fun k => ?_⟩
        · rw [h1]; exact h5
        · rw [h6]; rfl
      · have hf : ∀ sv', h.mem ppr "initialState" = some sv' → sv'.truthy = false := by
          intro sv' hsv'
          rw [hs] at hsv'
          injection hsv' with he
          subst he
          simpa using hsv
        obtain ⟨h1, -, -, -, h5, h6⟩ := wrapperCompose_specC_nosnap h P ppr ipr appr
          hpp hppr hip hipr hipp happr hf
        refine ⟨h.next + 1, ?_, fun k => ?_⟩
        · rw [h1]; exact h5
        · rw [h6]; rfl

/-- Witness for `pageProps_merge_page_level_wins`: a concrete heap where
the page-level page props are `{b: 2}` (cell 1) and the application-level
`initialProps.pageProps` are `{a: 1, b: 9}` (cell 3). -/
theorem pageProps_merge_page_level_wins_witness :
    ∃ m, (wrapperCompose
        ⟨fun r =>
          if r = 0 then
            fun k => if k = "pageProps" then some (.ref 1)
                     else if k = "initialProps" then some (.ref 2) else none
          else if r = 1 then fun k => if k = "b" then some (.num 2) else none
          else if r = 2 then fun k => if k = "pageProps" then some (.ref 3) else none
          else if r = 3 then
            fun k => if k = "a" then some (.num 1) else if k = "b" then some (.num 9) else none
          else HObj.empty, 4⟩ 0).heap.mem (wrapperCompose
        ⟨fun r =>
          if r = 0 then
            fun k => if k = "pageProps" then some (.ref 1)
                     else if k = "initialProps" then some (.ref 2) else none
          else if r = 1 then fun k => if k = "b" then some (.num 2) else none
          else if r = 2 then fun k => if k = "pageProps" then some (.ref 3) else none
          else if r = 3 then
            fun k => if k = "a" then some (.num 1) else if k = "b" then some (.num 9) else none
          else HObj.empty, 4⟩ 0).props "pageProps" = some (.ref m) ∧
      ∀ k, (wrapperCompose
        ⟨fun r =>
          if r = 0 then
            fun k => if k = "pageProps" then some (.ref 1)
                     else if k = "initialProps" then some (.ref 2) else none
          else if r = 1 then fun k => if k = "b" then some (.num 2) else none
          else if r = 2 then fun k => if k = "pageProps" then some (.ref 3) else none
          else if r = 3 then
            fun k => if k = "a" then some (.num 1) else if k = "b" then some (.num 9) else none
          else HObj.empty, 4⟩ 0).heap.mem m k
        = (match (if k = "b" then some (HVal.num 2) else none) with
           | some v => some v
           | none => if k = "a" then some (HVal.num 1)
                     else if k = "b" then some (HVal.num 9) else none) :=
  pageProps_merge_page_level_wins _ 0 1 2 3 rfl (by decide) rfl (by decide) rfl (by decide)

/-- **C5.** When the page-level snapshot `pageProps.initialState` is
present (truthy), the composition step removes `initialState` from the
`pageProps` exposed to rendering, and the removal operates on a freshly
allocated shallow copy: the caller's original props object (cell `P`) and
its original `pageProps` object (cell `ppr`) are bitwise untouched, and
running the composition again over the resulting heap with the same input
produces an exposed `pageProps` object with identical contents. -/
theorem pageProps_initialState_removed_without_mutation (h : Heap) (P ppr : Nat) (sv : HVal)
    (hP : P < h.next) (hpp : h.mem P "pageProps" = some (.ref ppr)) (hppr : ppr < h.next)
    (hsnapf : h.mem ppr "initialState" = some sv) (hsv : sv.truthy = true)
    (hip : h.mem P "initialProps" = none ∨
      (∃ ipr, h.mem P "initialProps" = some (.ref ipr) ∧ ipr < h.next ∧
        (h.mem ipr "pageProps" = none ∨
          (∃ appr, h.mem ipr "pageProps" = some (.ref appr) ∧ appr < h.next)))) :
    ((wrapperCompose h P).heap.mem P = h.mem P ∧
     (wrapperCompose h P).heap.mem ppr = h.mem ppr) ∧
    (∃ c, h.next ≤ c ∧
      (wrapperCompose h P).heap.mem (wrapperCompose h P).resultProps "pageProps"
        = some (.ref c) ∧
      (wrapperCompose h P).heap.mem c "initialState" = none) ∧
    (∃ c c2,
      (wrapperCompose h P).heap.mem (wrapperCompose h P).resultProps "pageProps"
        = some (.ref c) ∧
      (wrapperCompose (wrapperCompose h P).heap P).heap.mem
          (wrapperCompose (wrapperCompose h P).heap P).resultProps "pageProps"
        = some (.ref c2) ∧
      (wrapperCompose (wrapperCompose h P).heap P).heap.mem c2
        = (wrapperCompose h P).heap.mem c) := by
  rcases hip with hipA | ⟨ipr, hipB, hipr, hinner⟩
  · obtain ⟨-, hres, hnext, hpres, -, hrpp, hdel⟩ :=
      wrapperCompose_specA h P ppr sv hpp hppr hipA hsnapf hsv
    obtain ⟨-, hres2, -, hpres2, -, hrpp2, hdel2⟩ :=
      wrapperCompose_specA (wrapperCompose h P).heap P ppr sv
        (by rw [hpres P hP]; exact hpp) (by omega)
        (by rw [hpres P hP]; exact hipA) (by rw [hpres ppr hppr]; exact hsnapf) hsv
    refine ⟨⟨hpres P hP, hpres ppr hppr⟩,
      ⟨h.next + 1, by omega, by rw [hres]; exact hrpp, by rw [hdel]; simp [HObj.del]⟩,
      ⟨h.next + 1, (wrapperCompose h P).heap.next + 1,
        by rw [hres]; exact hrpp, by rw [hres2]; exact hrpp2, ?_⟩⟩
    rw [hdel2, hdel, hpres ppr hppr]
  · rcases hinner with hippB | ⟨appr, hippC, happr⟩
    · obtain ⟨-, hres, hnext, hpres, -, hrpp, hdel⟩ :=
        wrapperCompose_specB h P ppr ipr sv hpp hppr hipB hipr hippB hsnapf hsv
      obtain ⟨-, hres2, -, hpres2, -, hrpp2, hdel2⟩ :=
        wrapperCompose_specB (wrapperCompose h P).heap P ppr ipr sv
          (by rw [hpres P hP]; exact hpp) (by omega)
          (by rw [hpres P hP]; exact hipB) (by omega)
          (by rw [hpres ipr hipr]; exact hippB) (by rw [hpres ppr hppr]; exact hsnapf) hsv
      refine ⟨⟨hpres P hP, hpres ppr hppr⟩,
        ⟨h.next + 1, by omega, by rw [hres]; exact hrpp, by rw [hdel]; simp [HObj.del]⟩,
        ⟨h.next + 1, (wrapperCompose h P).heap.next + 1,
          by rw [hres]; exact hrpp, by rw [hres2]; exact hrpp2, ?_⟩⟩
      rw [hdel2, hdel, hpres ppr hppr]
    · obtain ⟨-, hres, hnext, hpres, -, -, hrpp, hdel⟩ :=
        wrapperCompose_specC h P ppr ipr appr sv hpp hppr hipB hipr hippC happr hsnapf hsv
      obtain ⟨-, hres2, -, hpres2, -, -, hrpp2, hdel2⟩ :=
        wrapperCompose_specC (wrapperCompose h P).heap P ppr ipr appr sv
          (by rw [hpres P hP]; exact hpp) (by omega)
          (by rw [hpres P hP]; exact hipB) (by omega)
          (by rw [hpres ipr hipr]; exact hippC) (by omega)
          (by rw [hpres ppr hppr]; exact hsnapf) hsv
      refine ⟨⟨hpres P hP, hpres ppr hppr⟩,
        ⟨h.next + 2, by omega, by rw [hres]; exact hrpp, by rw [hdel]; simp [HObj.del]⟩,
        ⟨h.next + 2, (wrapperCompose h P).heap.next + 2,
          by rw [hres]; exact hrpp, by rw [hres2]; exact hrpp2, ?_⟩⟩
      rw [hdel2, hdel, hpres ppr hppr, hpres appr happr]

/-- Witness for `pageProps_initialState_removed_without_mutation`: a
concrete heap whose props object (cell 0) has `pageProps = {initialState:
7, b: 2}` (cell 1) and no `initialProps`. -/
theorem pageProps_initialState_removed_without_mutation_witness :
    ((wrapperCompose
        ⟨fun r =>
          if r = 0 then fun k => if k = "pageProps" then some (.ref 1) else none
          else if r = 1 then
            fun k => if k = "initialState" then some (.num 7)
                     else if k = "b" then some (.num 2) else none
          else HObj.empty, 2⟩ 0).heap.mem 0 =
        (⟨fun r =>
          if r = 0 then fun k => if k = "pageProps" then some (.ref 1) else none
          else if r = 1 then
            fun k => if k = "initialState" then some (.num 7)
                     else if k = "b" then some (.num 2) else none
          else HObj.empty, 2⟩ : Heap).mem 0 ∧
      (wrapperCompose
        ⟨fun r =>
          if r = 0 then fun k => if k = "pageProps" then some (.ref 1) else none
          else if r = 1 then
            fun k => if k = "initialState" then some (.num 7)
                     else if k = "b" then some (.num 2) else none
          else HObj.empty, 2⟩ 0).heap.mem 1 =
        (⟨fun r =>
          if r = 0 then fun k => if k = "pageProps" then some (.ref 1) else none
          else if r = 1 then
            fun k => if k = "initialState" then some (.num 7)
                     else if k = "b" then some (.num 2) else none
          else HObj.empty, 2⟩ : Heap).mem 1) ∧
    (∃ c, 2 ≤ c ∧
      (wrapperCompose
        ⟨fun r =>
          if r = 0 then fun k => if k = "pageProps" then some (.ref 1) else none
          else if r = 1 then
            fun k => if k = "initialState" then some (.num 7)
                     else if k = "b" then some (.num 2) else none
          else HObj.empty, 2⟩ 0).heap.mem (wrapperCompose
        ⟨fun r =>
          if r = 0 then fun k => if k = "pageProps" then some (.ref 1) else none
          else if r = 1 then
            fun k => if k = "initialState" then some (.num 7)
                     else if k = "b" then some (.num 2) else none
          else HObj.empty, 2⟩ 0).resultProps "pageProps" = some (.ref c) ∧
      (wrapperCompose
        ⟨fun r =>
          if r = 0 then fun k => if k = "pageProps" then some (.ref 1) else none
          else if r = 1 then
            fun k => if k = "initialState" then some (.num 7)
                     else if k = "b" then some (.num 2) else none
          else HObj.empty, 2⟩ 0).heap.mem c "initialState" = none) ∧
    (∃ c c2,
      (wrapperCompose
        ⟨fun r =>
          if r = 0 then fun k => if k = "pageProps" then some (.ref 1) else none
          else if r = 1 then
            fun k => if k = "initialState" then some (.num 7)
                     else if k = "b" then some (.num 2) else none
          else HObj.empty, 2⟩ 0).heap.mem (wrapperCompose
        ⟨fun r =>
          if r = 0 then fun k => if k = "pageProps" then some (.ref 1) else none
          else if r = 1 then
            fun k => if k = "initialState" then some (.num 7)
                     else if k = "b" then some (.num 2) else none
          else HObj.empty, 2⟩ 0).resultProps "pageProps" = some (.ref c) ∧
      (wrapperCompose (wrapperCompose
        ⟨fun r =>
          if r = 0 then fun k => if k = "pageProps" then some (.ref 1) else none
          else if r = 1 then
            fun k => if k = "initialState" then some (.num 7)
                     else if k = "b" then some (.num 2) else none
          else HObj.empty, 2⟩ 0).heap 0).heap.mem
          (wrapperCompose (wrapperCompose
        ⟨fun r =>
          if r = 0 then fun k => if k = "pageProps" then some (.ref 1) else none
          else if r = 1 then
            fun k => if k = "initialState" then some (.num 7)
                     else if k = "b" then some (.num 2) else none
          else HObj.empty, 2⟩ 0).heap 0).resultProps "pageProps" = some (.ref c2) ∧
      (wrapperCompose (wrapperCompose
        ⟨fun r =>
          if r = 0 then fun k => if k = "pageProps" then some (.ref 1) else none
          else if r = 1 then
            fun k => if k = "initialState" then some (.num 7)
                     else if k = "b" then some (.num 2) else none
          else HObj.empty, 2⟩ 0).heap 0).heap.mem c2
        = (wrapperCompose
        ⟨fun r =>
          if r = 0 then fun k => if k = "pageProps" then some (.ref 1) else none
          else if r = 1 then
            fun k => if k = "initialState" then some (.num 7)
                     else if k = "b" then some (.num 2) else none
          else HObj.empty, 2⟩ 0).heap.mem c) :=
  pageProps_initialState_removed_without_mutation _ 0 1 (.num 7) (by decide) rfl (by decide)
    rfl rfl (Or.inl rfl)

end NextReduxWrapper
